import Mathlib

/-
Verification of the condition-key parsing, priority-ranking, merging and
rule-generation logic of the slive-migration repository (GrowthBook side).

Python strings are modelled as lists of characters (`Str`); Python values
occurring in configuration files are modelled by the inductive `PyVal`;
Python dictionaries are modelled as association lists with Python's
update-in-place / append-at-end semantics (`dictSet`, `dictGet`).

Each definition is a direct translation of the function of the same name in
`src/growthbook/` unless its doc comment says otherwise.
-/

/-- Characters of a Python string. -/
abbrev Str : Type := List Char

/-- Convenience coercion from a Lean string literal to `Str`. -/
def S (s : String) : Str := s.toList

/-- Python `s.split(sep)` for a one-character separator `c`:
splits `s` at every occurrence of `c`, keeping empty parts. -/
def splitOnChar (c : Char) : Str → List Str
  | [] => [[]]
  | x :: xs =>
    match splitOnChar c xs with
    | [] => [[]]
    | p :: ps => if x = c then [] :: p :: ps else (x :: p) :: ps

/-- Python `s.split(sep, 1)[0]` (equivalently `s.split(sep)[0]`): the text
before the first occurrence of `c`, or all of `s` when `c` is absent. -/
def beforeFirst (c : Char) : Str → Str
  | [] => []
  | x :: xs => if x = c then [] else x :: beforeFirst c xs

/-- Python `s.split(sep, 1)[1]`: the text after the first occurrence of `c`
(empty when `c` is absent; the callers only use it when `c ∈ s`). -/
def afterFirst (c : Char) : Str → Str
  | [] => []
  | x :: xs => if x = c then xs else afterFirst c xs

theorem splitOnChar_ne_nil (c : Char) (l : Str) : splitOnChar c l ≠ [] := by
  cases l with
  | nil => simp [splitOnChar]
  | cons x xs =>
    simp only [splitOnChar]
    cases h : splitOnChar c xs with
    | nil => simp
    | cons p ps =>
      by_cases hx : x = c <;> simp [hx]

theorem splitOnChar_not_mem {c : Char} {l : Str} (h : c ∉ l) :
    splitOnChar c l = [l] := by
  induction l with
  | nil => rfl
  | cons x xs ih =>
    have hx : x ≠ c := fun he => h (he ▸ List.mem_cons_self x xs)
    have hxs : c ∉ xs := fun hm => h (List.mem_cons_of_mem x hm)
    simp only [splitOnChar, ih hxs]
    simp [hx]

theorem splitOnChar_append_sep {c : Char} {l : Str} (r : Str) (h : c ∉ l) :
    splitOnChar c (l ++ c :: r) = l :: splitOnChar c r := by
  induction l with
  | nil =>
    simp only [List.nil_append, splitOnChar]
    cases hr : splitOnChar c r with
    | nil => exact absurd hr (splitOnChar_ne_nil c r)
    | cons p ps => simp
  | cons x xs ih =>
    have hx : x ≠ c := fun he => h (he ▸ List.mem_cons_self x xs)
    have hxs : c ∉ xs := fun hm => h (List.mem_cons_of_mem x hm)
    simp only [List.cons_append, splitOnChar, List.append_eq]
    rw [ih hxs]
    simp [hx]

theorem exists_part_of_mem {c x : Char} {l : Str} (hne : x ≠ c) (hx : x ∈ l) :
    ∃ p ∈ splitOnChar c l, x ∈ p := by
  induction l with
  | nil => cases hx
  | cons y ys ih =>
    simp only [splitOnChar]
    cases hr : splitOnChar c ys with
    | nil => exact absurd hr (splitOnChar_ne_nil c ys)
    | cons p ps =>
      by_cases hy : y = c
      · have hxys : x ∈ ys := by
          rcases List.mem_cons.mp hx with h1 | h1
          · exact absurd (h1.trans hy) hne
          · exact h1
        rcases ih hxys with ⟨q, hq, hxq⟩
        rw [hr] at hq
        refine ⟨q, ?_, hxq⟩
        simp only [if_pos hy]
        exact List.mem_cons_of_mem _ hq
      · simp only [if_neg hy]
        rcases List.mem_cons.mp hx with h1 | h1
        · exact ⟨y :: p, List.mem_cons_self _ _, h1 ▸ List.mem_cons_self x p⟩
        · rcases ih h1 with ⟨q, hq, hxq⟩
          rw [hr] at hq
          rcases List.mem_cons.mp hq with h2 | h2
          · exact ⟨y :: p, List.mem_cons_self _ _, h2 ▸ List.mem_cons_of_mem y hxq⟩
          · exact ⟨q, List.mem_cons_of_mem _ h2, hxq⟩

theorem beforeFirst_append {c : Char} {a : Str} (b : Str) (h : c ∉ a) :
    beforeFirst c (a ++ c :: b) = a := by
  induction a with
  | nil => simp [beforeFirst]
  | cons x xs ih =>
    have hx : x ≠ c := fun he => h (he ▸ List.mem_cons_self x xs)
    have hxs : c ∉ xs := fun hm => h (List.mem_cons_of_mem x hm)
    simp [beforeFirst, hx, ih hxs]

theorem afterFirst_append {c : Char} {a : Str} (b : Str) (h : c ∉ a) :
    afterFirst c (a ++ c :: b) = b := by
  induction a with
  | nil => simp [afterFirst]
  | cons x xs ih =>
    have hx : x ≠ c := fun he => h (he ▸ List.mem_cons_self x xs)
    have hxs : c ∉ xs := fun hm => h (List.mem_cons_of_mem x hm)
    simp [afterFirst, hx, ih hxs]

theorem beforeFirst_not_mem {c : Char} {l : Str} (h : c ∉ l) :
    beforeFirst c l = l := by
  induction l with
  | nil => rfl
  | cons x xs ih =>
    have hx : x ≠ c := fun he => h (he ▸ List.mem_cons_self x xs)
    have hxs : c ∉ xs := fun hm => h (List.mem_cons_of_mem x hm)
    simp [beforeFirst, hx, ih hxs]

/-- Python dictionary update `m[k] = v` on an association list: replace the
value at the first (and, for Python dictionaries, only) occurrence of `k`
keeping its position, or append a new entry at the end. -/
def dictSet {α : Type} : List (Str × α) → Str → α → List (Str × α)
  | [], k, v => [(k, v)]
  | (k0, v0) :: rest, k, v =>
    if k0 = k then (k0, v) :: rest else (k0, v0) :: dictSet rest k v

/-- Python dictionary lookup `m.get(k)` on an association list. -/
def dictGet {α : Type} : List (Str × α) → Str → Option α
  | [], _ => none
  | (k0, v0) :: rest, k => if k0 = k then some v0 else dictGet rest k

theorem dictGet_dictSet {α : Type} (m : List (Str × α)) (k : Str) (v : α) (k2 : Str) :
    dictGet (dictSet m k v) k2 = if k = k2 then some v else dictGet m k2 := by
  induction m with
  | nil =>
    by_cases h : k = k2 <;> simp [dictSet, dictGet, h]
  | cons kv rest ih =>
    obtain ⟨k0, v0⟩ := kv
    by_cases h0 : k0 = k
    · subst h0
      by_cases h2 : k0 = k2 <;> simp [dictSet, dictGet, h2]
    · rw [show dictSet ((k0, v0) :: rest) k v = (k0, v0) :: dictSet rest k v by
        simp [dictSet, h0]]
      by_cases h2 : k0 = k2
      · subst h2
        have hk : ¬ k = k0 := fun h => h0 h.symm
        simp [dictGet, hk]
      · simp [dictGet, h2, ih]

theorem dictGet_append {α : Type} (l1 l2 : List (Str × α)) (k : Str) :
    dictGet (l1 ++ l2) k =
      match dictGet l1 k with
      | some v => some v
      | none => dictGet l2 k := by
  induction l1 with
  | nil => simp [dictGet]
  | cons kv rest ih =>
    obtain ⟨k0, v0⟩ := kv
    by_cases h0 : k0 = k <;> simp [dictGet, h0, ih]

theorem dictGet_eq_none_iff {α : Type} (m : List (Str × α)) (k : Str) :
    dictGet m k = none ↔ k ∉ m.map Prod.fst := by
  induction m with
  | nil => simp [dictGet]
  | cons kv rest ih =>
    obtain ⟨k0, v0⟩ := kv
    by_cases h0 : k0 = k
    · subst h0
      simp only [dictGet, if_pos rfl, List.map_cons, List.mem_cons]
      constructor
      · intro h
        exact absurd h (by simp)
      · intro h
        exact absurd (Or.inl trivial) h
    · have hk : ¬ k = k0 := fun h => h0 h.symm
      simp only [dictGet, if_neg h0, List.map_cons, List.mem_cons, ih]
      constructor
      · intro h hmem
        rcases hmem with h1 | h1
        · exact hk h1
        · exact h h1
      · intro h h1
        exact h (Or.inr h1)

theorem dictGet_reverse_eq_none {α : Type} (m : List (Str × α)) (k : Str)
    (h : dictGet m k = none) : dictGet m.reverse k = none := by
  rw [dictGet_eq_none_iff] at h ⊢
  rw [List.map_reverse, List.mem_reverse]
  exact h

theorem dictGet_reverse_of_nodup {α : Type} (m : List (Str × α)) (k : Str)
    (h : (m.map Prod.fst).Nodup) : dictGet m.reverse k = dictGet m k := by
  induction m with
  | nil => rfl
  | cons kv rest ih =>
    obtain ⟨k0, v0⟩ := kv
    simp only [List.map_cons, List.nodup_cons] at h
    simp only [List.reverse_cons, dictGet_append, dictGet]
    by_cases h0 : k0 = k
    · subst h0
      have hrest : dictGet rest k0 = none := (dictGet_eq_none_iff rest k0).mpr h.1
      rw [ih h.2, hrest]
    · rw [ih h.2]
      cases hr : dictGet rest k with
      | none => simp [dictGet, h0]
      | some v => simp [h0]

/-- Python values as they occur in the configuration files: booleans,
integers, floats, strings, lists and dictionaries.  Floats are carried as
rationals purely as a tag for `isinstance(value, float)` checks; no claim
depends on a float payload or its textual form (floating point is outside
the embedding). -/
inductive PyVal : Type where
  | bool (b : Bool)
  | int (n : Int)
  | float (q : Rat)
  | str (s : Str)
  | list (xs : List PyVal)
  | dict (kvs : List (Str × PyVal))

/-- Decimal digits of a natural number. -/
def natToStr (n : Nat) : Str := Nat.toDigits 10 n

/-- Decimal rendering of an integer, Python `str(int)`. -/
def intToStr (n : Int) : Str :=
  if n < 0 then '-' :: natToStr n.natAbs else natToStr n.natAbs

/-- Placeholder rendering for a float payload.  Python renders floats by
their shortest round-tripping decimal form, which is not modelled
(floating point); no claim evaluates this function. -/
def floatToStr (q : Rat) : Str :=
  intToStr q.num ++ '/' :: natToStr q.den

/-- Opening brace character. -/
def lbrace : Char := Char.ofNat 123

/-- Closing brace character. -/
def rbrace : Char := Char.ofNat 125

/-- Single-quote character. -/
def squote : Char := Char.ofNat 39

/-- Double-quote character. -/
def dquote : Char := Char.ofNat 34

/-- Backslash character. -/
def bslash : Char := Char.ofNat 92

/-- JSON string escaping as performed by Python `json.dumps` for the
characters that occur in this repository's data: backslash and double
quote.  (Control characters and non-ASCII escaping are not exercised by
any claim.) -/
def jsonEscape : Str → Str
  | [] => []
  | x :: xs =>
    if x = bslash then bslash :: bslash :: jsonEscape xs
    else if x = dquote then bslash :: dquote :: jsonEscape xs
    else x :: jsonEscape xs

/-- A JSON string literal: escaped text in double quotes. -/
def jsonQuote (s : Str) : Str := dquote :: jsonEscape s ++ [dquote]

mutual

/-- Python `json.dumps(value)` with the default separators
(`", "` between items, `": "` between a key and a value). -/
def jsonDumps : PyVal → Str
  | .bool true => S ("true")
  | .bool false => S ("false")
  | .int n => intToStr n
  | .float q => floatToStr q
  | .str s => jsonQuote s
  | .list xs => '[' :: jsonDumpsItems xs ++ [']']
  | .dict kvs => lbrace :: jsonDumpsPairs kvs ++ [rbrace]

/-- Comma-separated JSON renderings of the items of a list. -/
def jsonDumpsItems : List PyVal → Str
  | [] => []
  | [x] => jsonDumps x
  | x :: y :: xs => jsonDumps x ++ S (", ") ++ jsonDumpsItems (y :: xs)

/-- Comma-separated JSON renderings of the entries of a dictionary. -/
def jsonDumpsPairs : List (Str × PyVal) → Str
  | [] => []
  | [(k, v)] => jsonQuote k ++ S (": ") ++ jsonDumps v
  | (k, v) :: p :: ps =>
    jsonQuote k ++ S (": ") ++ jsonDumps v ++ S (", ") ++ jsonDumpsPairs (p :: ps)

end

mutual

/-- Python `repr(value)` restricted to the value shapes of `PyVal`;
strings are rendered in single quotes (Python's quote-choice and escaping
inside `repr` are not exercised by any claim). -/
def pyRepr : PyVal → Str
  | .bool true => S ("True")
  | .bool false => S ("False")
  | .int n => intToStr n
  | .float q => floatToStr q
  | .str s => squote :: s ++ [squote]
  | .list xs => '[' :: pyReprItems xs ++ [']']
  | .dict kvs => lbrace :: pyReprPairs kvs ++ [rbrace]

/-- Comma-separated `repr` renderings of the items of a list. -/
def pyReprItems : List PyVal → Str
  | [] => []
  | [x] => pyRepr x
  | x :: y :: xs => pyRepr x ++ S (", ") ++ pyReprItems (y :: xs)

/-- Comma-separated `repr` renderings of the entries of a dictionary
(keys are strings, rendered in single quotes). -/
def pyReprPairs : List (Str × PyVal) → Str
  | [] => []
  | [(k, v)] => squote :: k ++ [squote] ++ S (": ") ++ pyRepr v
  | (k, v) :: p :: ps =>
    squote :: k ++ [squote] ++ S (": ") ++ pyRepr v ++ S (", ") ++ pyReprPairs (p :: ps)

end

/-- Python `str(value)`: the identity on strings, `repr` otherwise
(for the types of `PyVal`, `str` and `repr` agree on non-strings). -/
def pyStr : PyVal → Str
  | .str s => s
  | v => pyRepr v

/-- The priority table of `test_swag_config.py` (lowest priority first:
`default`; highest priority last: `country=jp`). -/
def PRIORITY_ORDER : List Str :=
  [S ("default"),
   S ("country"),
   S ("country-group"),
   S ("os"),
   S ("os_version"),
   S ("pusher-app"),
   S ("flavor"),
   S ("utm_campaign"),
   S ("utm_medium"),
   S ("utm_source"),
   S ("utm_content"),
   S ("utm_term"),
   S ("language"),
   S ("forced-update"),
   S ("suggested-update"),
   S ("nsfw"),
   S ("authenticated"),
   S ("creator"),
   S ("currency"),
   S ("partner"),
   S ("verified"),
   S ("ab"),
   S ("cohort"),
   S ("banned"),
   S ("beta"),
   S ("owner"),
   S ("client_id"),
   S ("country=jp")]

/-- Modelled from the spec: `main.py` imports `PRIORITY_ORDER` from a
`constants` module that is not among the sources.  The spec describes a
single PriorityOrder table, an ordered sequence of roughly 28
attribute-name tokens running from lowest (`default`) to highest
(`country=jp`), which is exactly the table spelled out in
`test_swag_config.py`; the missing `constants.PRIORITY_ORDER` is therefore
taken to be that table. -/
def CONSTANTS_PRIORITY_ORDER : List Str := PRIORITY_ORDER

/-- `get_priority_score` of `test_swag_config.py`: exact match on the whole
variation id, else exact match on the attribute name before the first `=`,
else the `utm_campaign` index for `utm_`-prefixed attribute names, else the
midpoint of the table. -/
def get_priority_score (variation_id : Str) : Nat :=
  if variation_id ∈ PRIORITY_ORDER then PRIORITY_ORDER.indexOf variation_id
  else if '=' ∈ variation_id then
    let key := beforeFirst '=' variation_id
    if key ∈ PRIORITY_ORDER then PRIORITY_ORDER.indexOf key
    else if (S ("utm_")).isPrefixOf key ∧ S ("utm_campaign") ∈ PRIORITY_ORDER then
      PRIORITY_ORDER.indexOf (S ("utm_campaign"))
    else PRIORITY_ORDER.length / 2
  else PRIORITY_ORDER.length / 2

/-- `get_priority_index` of `main.py` (closure inside
`reorder_config_value`, with the table it closes over made a parameter):
the index of the first table entry that the attribute name before the
first `=` equals or starts with, else the length of the table. -/
def get_priority_index (priority_order : List Str) (key : Str) : Nat :=
  let key_base := beforeFirst '=' key
  match priority_order.findIdx? (fun priority_key =>
      key_base == priority_key || priority_key.isPrefixOf key_base) with
  | some i => i
  | none => priority_order.length

/-- `reorder_config_value` of `main.py`: stable sort of the configuration
items ascending by `get_priority_index` of the key (Python `sorted` with a
key function). -/
def reorder_config_value (priority_order : List Str)
    (config_value : List (Str × PyVal)) : List (Str × PyVal) :=
  List.insertionSort
    (fun a b => get_priority_index priority_order a.1 ≤ get_priority_index priority_order b.1)
    config_value

/-- One configuration fragment's flat key-to-value map. -/
abbrev Config : Type := List (Str × PyVal)

/-- `merge_configs` of `test_swag_config.py`: fold the configuration maps
left to right, each key of each map unconditionally overwriting the
accumulator. -/
def merge_configs (configs : List Config) : Config :=
  configs.foldl (fun merged config =>
    config.foldl (fun m kv => dictSet m kv.1 kv.2) merged) []

/-- Ascending comparison of fragments by priority score, the sort key used
in `main()` of `test_swag_config.py`. -/
def fragLE (a b : Nat × Config) : Prop := a.1 ≤ b.1

instance : DecidableRel fragLE := fun a b => inferInstanceAs (Decidable (a.1 ≤ b.1))

instance : IsTotal (Nat × Config) fragLE := ⟨fun a b => Nat.le_total a.1 b.1⟩

instance : IsTrans (Nat × Config) fragLE := ⟨fun _ _ _ h1 h2 => Nat.le_trans h1 h2⟩

/-- The sort step of `main()` in `test_swag_config.py`:
`configs_with_priority.sort(key=lambda x: x['priority'])` (Python list
sort is stable; insertion sort with a non-strict comparison is the same
stable sort). -/
def sortFragments (fs : List (Nat × Config)) : List (Nat × Config) :=
  List.insertionSort fragLE fs

/-- The fetch-sort-merge pipeline of `main()` in `test_swag_config.py`
applied to already-fetched fragments: sort ascending by priority score,
then merge the configuration maps in that order. -/
def mergeFragments (fs : List (Nat × Config)) : Config :=
  merge_configs ((sortFragments fs).map Prod.snd)

/-- A saved group as stored by the GrowthBook API and cached by the client:
its display name, its server-assigned identifier, and its condition as the
JSON string that was sent. -/
structure SavedGroup : Type where
  name : Str
  id : Str
  condition : Str

/-- The state of the `GrowthBook` client relevant to saved groups: the
server-side list of groups (`remote`), the client's cache flag and cache
(keyed by both name and id, as in `list_saved_groups`), and the counter the
modelled server uses to assign fresh group identifiers. -/
structure GBState : Type where
  remote : List SavedGroup
  cacheLoaded : Bool
  cache : List (Str × SavedGroup)
  nextId : Nat

/-- Identifier the modelled server assigns to the `n`-th created group.
(In the Python code the id comes from the HTTP response; the modelled
remote assigns fresh ids deterministically.) -/
def genId (n : Nat) : Str := S ("grp_") ++ natToStr n

/-- `list_saved_groups` of `growthbook_client.py` reduced to its effect on
the client state: fetch the server's group list and rebuild the cache,
keying each group by name and by id (`cache[name] = item; cache[id] =
item`).  The guard mirrors the `if self._is_saved_groups_cache_loaded`
early return used on the `ensure_saved_group` path. -/
def list_saved_groups (s : GBState) : GBState :=
  if s.cacheLoaded then s
  else
    { s with
      cacheLoaded := true
      cache := s.remote.foldl
        (fun c g => dictSet (dictSet c g.name g) g.id g) [] }

/-- Render a string-valued condition dictionary the way the client does
before sending it: `json.dumps(condition)`. -/
def conditionDumps (condition : List (Str × Str)) : Str :=
  jsonDumps (PyVal.dict (condition.map (fun kv => (kv.1, PyVal.str kv.2))))

/-- `create_saved_group` of `growthbook_client.py` on the success path: the
POST is modelled as succeeding, with the server assigning the next fresh
id; the new group is appended to the remote list and cached under its name
and its id, and the id is returned.  (The Python error branch returns
`None` and leaves the cache unchanged; no claim depends on it.) -/
def create_saved_group (s : GBState) (name : Str) (condition : List (Str × Str)) :
    Option Str × GBState :=
  let condition_str := conditionDumps condition
  let gid := genId s.nextId
  let g : SavedGroup := { name := name, id := gid, condition := condition_str }
  (some gid,
   { s with
     remote := s.remote ++ [g]
     nextId := s.nextId + 1
     cache := dictSet (dictSet s.cache name g) gid g })

/-- `ensure_saved_group` of `growthbook_client.py`: populate the cache at
least once, then look the group up by name; on a hit return the cached
group's id (the requested condition is not consulted), otherwise create
the group. -/
def ensure_saved_group (s : GBState) (name : Str) (condition : List (Str × Str)) :
    Option Str × GBState :=
  let s1 := list_saved_groups s
  match dictGet s1.cache name with
  | some existing => (some existing.id, s1)
  | none => create_saved_group s1 name condition

/-- The `SIMPLE_KEYS` set of `process_config_to_rules`. -/
def SIMPLE_KEYS : List Str :=
  [S ("beta"), S ("authenticated"), S ("verified"), S ("creator"),
   S ("curator"), S ("banned"), S ("nsfw"), S ("owner")]

/-- `_extract_value` of `growthbook_client.py`: unwrap a one-element list,
turn an empty list into the empty string, keep anything else. -/
def extractValue : PyVal → PyVal
  | .list [x] => x
  | .list [] => .str []
  | v => v

/-- `_infer_value_type` of `growthbook_client.py`.  (Python checks `bool`
before `int`/`float` because `bool` is a subclass of `int`; the separate
constructors make the order immaterial here.) -/
def inferValueType : PyVal → Str
  | .bool _ => S ("boolean")
  | .int _ => S ("number")
  | .float _ => S ("number")
  | .list _ => S ("json")
  | .dict _ => S ("json")
  | .str _ => S ("string")

/-- The count `sum(1 for part in parts if "=" in part)` over the parts of
the value portion split on the candidate separator. -/
def partsWithEquals (sep : Char) (value_part : Str) : Nat :=
  List.countP (fun part => decide ('=' ∈ part)) (splitOnChar sep value_part)

/-- `_has_unsupported_separator` of `growthbook_client.py`. -/
def hasUnsupportedSeparator (key : Str) : Bool :=
  if '=' ∉ key then false
  else if '&' ∈ key then
    let value_part := afterFirst '=' key
    if ';' ∈ value_part ∧ '=' ∈ value_part then true
    else false
  else
    let value_part := afterFirst '=' key
    if ';' ∈ value_part ∧ 0 < partsWithEquals ';' value_part then true
    else if '-' ∈ value_part ∧ 0 < partsWithEquals '-' value_part then true
    else false

/-- `_parse_ampersand_conditions` of `growthbook_client.py` with the split
character made a parameter (the Python function splits on `'&'`; the
semicolon-supporting variant modelled for the spec splits on `';'`): each
part containing `=` contributes the entry (text before the first `=`,
text after it) and its attribute name; parts without `=` only produce a
warning. -/
def parseSepConditions (sep : Char) (condition_string : Str) :
    List (Str × Str) × Finset Str :=
  (splitOnChar sep condition_string).foldl
    (fun acc part =>
      if '=' ∈ part then
        (dictSet acc.1 (beforeFirst '=' part) (afterFirst '=' part),
         insert (beforeFirst '=' part) acc.2)
      else acc)
    ([], ∅)

/-- `_parse_ampersand_conditions` itself. -/
def parse_ampersand_conditions (condition_string : Str) :
    List (Str × Str) × Finset Str :=
  parseSepConditions '&' condition_string

/-- One entry of `savedGroupTargeting` in a rule built by
`process_config_to_rules`. -/
structure SavedGroupTargeting : Type where
  matchType : Str
  savedGroups : List (Option Str)

/-- A rule dictionary as built by `process_config_to_rules` and consumed
by `create_feature` (`condition` is absent from the rules the processor
builds, so it defaults to the empty dictionary that
`rule.get("condition", {})` supplies). -/
structure Rule : Type where
  value : PyVal
  description : Str
  enabled : Bool
  condition : List (Str × Str) := []
  savedGroupTargeting : List SavedGroupTargeting

/-- One record of the exceptions ledger
(`{config_key, child_key, reason, value}`). -/
structure SkippedKey : Type where
  config_key : Option Str
  child_key : Str
  reason : Str
  value : PyVal

/-- The loop accumulator of `process_config_to_rules`. -/
structure ProcessAcc : Type where
  default_value : Option PyVal
  rules : List Rule
  value_type : Str
  attributes_needed : Finset Str
  skipped_keys : List SkippedKey

/-- The body of the `for child_key, child_value in config_value.items()`
loop of `process_config_to_rules`, threading the client state used by
`ensure_saved_group`. -/
def processChild (config_key : Option Str) (st : ProcessAcc × GBState)
    (child : Str × PyVal) : ProcessAcc × GBState :=
  let acc := st.1
  let s := st.2
  let child_key := child.1
  let actual_value := extractValue child.2
  if child_key = S ("default") then
    ({ acc with
       default_value := some actual_value
       value_type := inferValueType actual_value }, s)
  else if hasUnsupportedSeparator child_key then
    let separator_type := if ';' ∈ child_key then S ("semicolon") else S ("hyphen")
    ({ acc with
       skipped_keys := acc.skipped_keys ++
         [{ config_key := config_key, child_key := child_key,
            reason := S ("unsupported_separator_") ++ separator_type,
            value := actual_value }] }, s)
  else if child_key ∈ SIMPLE_KEYS then
    let attribute_name := S ("is_") ++ child_key
    let res := ensure_saved_group s child_key [(attribute_name, S ("true"))]
    ({ acc with
       attributes_needed := insert attribute_name acc.attributes_needed
       rules := acc.rules ++
         [{ value := actual_value, description := child_key ++ S (" users"),
            enabled := true,
            savedGroupTargeting :=
              [{ matchType := S ("all"), savedGroups := [res.1] }] }] }, res.2)
  else if '&' ∈ child_key then
    let parsed := parse_ampersand_conditions child_key
    let res := ensure_saved_group s child_key parsed.1
    ({ acc with
       attributes_needed := acc.attributes_needed ∪ parsed.2
       rules := acc.rules ++
         [{ value := actual_value, description := child_key, enabled := true,
            savedGroupTargeting :=
              [{ matchType := S ("all"), savedGroups := [res.1] }] }] }, res.2)
  else if '=' ∈ child_key then
    let attribute_name := beforeFirst '=' child_key
    let condition_value := afterFirst '=' child_key
    let res := ensure_saved_group s child_key [(attribute_name, condition_value)]
    ({ acc with
       attributes_needed := insert attribute_name acc.attributes_needed
       rules := acc.rules ++
         [{ value := actual_value,
            description := attribute_name ++ '=' :: condition_value,
            enabled := true,
            savedGroupTargeting :=
              [{ matchType := S ("all"), savedGroups := [res.1] }] }] }, res.2)
  else
    ({ acc with
       skipped_keys := acc.skipped_keys ++
         [{ config_key := config_key, child_key := child_key,
            reason := S ("unrecognized_pattern"),
            value := actual_value }] }, s)

/-- `process_config_to_rules` of `growthbook_client.py` for a dictionary
configuration value: fold the loop body over the items, then fall back to
the empty-string default when no `default` key was seen.  Returns
`(default_value, rules, value_type, attributes_needed, skipped_keys)`
together with the updated client state.  (The non-dictionary early return
and the `_log_exceptions` file write are outside this function's model;
the ledger append is `log_exceptions` below.) -/
def process_config_to_rules (s : GBState) (config_value : List (Str × PyVal))
    (config_key : Option Str) :
    (PyVal × List Rule × Str × Finset Str × List SkippedKey) × GBState :=
  let init : ProcessAcc :=
    { default_value := none, rules := [], value_type := S ("string"),
      attributes_needed := ∅, skipped_keys := [] }
  let res := config_value.foldl (processChild config_key) (init, s)
  let acc := res.1
  let default_value :=
    match acc.default_value with
    | some v => v
    | none => PyVal.str []
  ((default_value, acc.rules, acc.value_type, acc.attributes_needed,
    acc.skipped_keys), res.2)

/-- `_log_exceptions` of `growthbook_client.py` reduced to its list
manipulation: the ledger read from `except_file` is the first argument,
the newly skipped keys are extended onto it, and the result is what is
written back. -/
def log_exceptions (existing_exceptions exceptions : List SkippedKey) :
    List SkippedKey :=
  existing_exceptions ++ exceptions

/-- A formatted rule of the `create_feature` payload. -/
structure FormattedRule : Type where
  description : Str
  condition : Str
  enabled : Bool
  ruleType : Str
  value : Str
  savedGroupTargeting : List SavedGroupTargeting

/-- The per-rule formatting step of `create_feature`: the condition
dictionary is JSON-encoded, the type is `"force"`, and the value is
JSON-encoded for `json`-typed features and `str(...)`-rendered
otherwise. -/
def formatRule (value_type : Str) (rule : Rule) : FormattedRule :=
  { description := rule.description
    condition := conditionDumps rule.condition
    enabled := rule.enabled
    ruleType := S ("force")
    value :=
      if value_type = S ("json") then jsonDumps rule.value else pyStr rule.value
    savedGroupTargeting := rule.savedGroupTargeting }

/-- The rules list `create_feature` places into the environment payload:
the formatted rules in reversed order (`list(reversed(formatted_rules))`). -/
def create_feature_payload_rules (value_type : Str) (rules : List Rule) :
    List FormattedRule :=
  (rules.map (formatRule value_type)).reverse

/-- The `defaultValue` field of the `create_feature` payload:
`json.dumps(default_value)` for `json`-typed features,
`str(default_value)` otherwise. -/
def create_feature_default_value (value_type : Str) (default_value : PyVal) : Str :=
  if value_type = S ("json") then jsonDumps default_value else pyStr default_value

/-- Modelled from the spec: the semicolon-supporting variant of the
separator check.  `test_semicolon_pattern.py` exercises a client version
in which semicolon-joined `key=value` pairs (with no ampersand present)
are accepted while hyphen separation is still rejected, but that variant
of `growthbook_client.py` is not among the sources; per the spec only the
hyphen check remains. -/
def hasUnsupportedSeparatorSemiSupported (key : Str) : Bool :=
  if '=' ∉ key then false
  else if '&' ∈ key then false
  else
    let value_part := afterFirst '=' key
    if '-' ∈ value_part ∧ 0 < partsWithEquals '-' value_part then true
    else false

/-- Modelled from the spec: the loop body of the semicolon-supporting
variant of `process_config_to_rules` (the code path exercised by
`test_semicolon_pattern.py`, not among the sources).  It differs from
`processChild` in using the semicolon-supporting separator check (so the
only separator reason left is hyphen) and in parsing a semicolon-joined
key, when no ampersand is present, exactly like an ampersand-joined one. -/
def processChildSemi (config_key : Option Str) (st : ProcessAcc × GBState)
    (child : Str × PyVal) : ProcessAcc × GBState :=
  let acc := st.1
  let s := st.2
  let child_key := child.1
  let actual_value := extractValue child.2
  if child_key = S ("default") then
    ({ acc with
       default_value := some actual_value
       value_type := inferValueType actual_value }, s)
  else if hasUnsupportedSeparatorSemiSupported child_key then
    ({ acc with
       skipped_keys := acc.skipped_keys ++
         [{ config_key := config_key, child_key := child_key,
            reason := S ("unsupported_separator_hyphen"),
            value := actual_value }] }, s)
  else if child_key ∈ SIMPLE_KEYS then
    let attribute_name := S ("is_") ++ child_key
    let res := ensure_saved_group s child_key [(attribute_name, S ("true"))]
    ({ acc with
       attributes_needed := insert attribute_name acc.attributes_needed
       rules := acc.rules ++
         [{ value := actual_value, description := child_key ++ S (" users"),
            enabled := true,
            savedGroupTargeting :=
              [{ matchType := S ("all"), savedGroups := [res.1] }] }] }, res.2)
  else if '&' ∈ child_key then
    let parsed := parse_ampersand_conditions child_key
    let res := ensure_saved_group s child_key parsed.1
    ({ acc with
       attributes_needed := acc.attributes_needed ∪ parsed.2
       rules := acc.rules ++
         [{ value := actual_value, description := child_key, enabled := true,
            savedGroupTargeting :=
              [{ matchType := S ("all"), savedGroups := [res.1] }] }] }, res.2)
  else if ';' ∈ child_key then
    let parsed := parseSepConditions ';' child_key
    let res := ensure_saved_group s child_key parsed.1
    ({ acc with
       attributes_needed := acc.attributes_needed ∪ parsed.2
       rules := acc.rules ++
         [{ value := actual_value, description := child_key, enabled := true,
            savedGroupTargeting :=
              [{ matchType := S ("all"), savedGroups := [res.1] }] }] }, res.2)
  else if '=' ∈ child_key then
    let attribute_name := beforeFirst '=' child_key
    let condition_value := afterFirst '=' child_key
    let res := ensure_saved_group s child_key [(attribute_name, condition_value)]
    ({ acc with
       attributes_needed := insert attribute_name acc.attributes_needed
       rules := acc.rules ++
         [{ value := actual_value,
            description := attribute_name ++ '=' :: condition_value,
            enabled := true,
            savedGroupTargeting :=
              [{ matchType := S ("all"), savedGroups := [res.1] }] }] }, res.2)
  else
    ({ acc with
       skipped_keys := acc.skipped_keys ++
         [{ config_key := config_key, child_key := child_key,
            reason := S ("unrecognized_pattern"),
            value := actual_value }] }, s)

/-- Modelled from the spec: the semicolon-supporting variant of
`process_config_to_rules` (see `processChildSemi`). -/
def process_config_to_rules_semi (s : GBState) (config_value : List (Str × PyVal))
    (config_key : Option Str) :
    (PyVal × List Rule × Str × Finset Str × List SkippedKey) × GBState :=
  let init : ProcessAcc :=
    { default_value := none, rules := [], value_type := S ("string"),
      attributes_needed := ∅, skipped_keys := [] }
  let res := config_value.foldl (processChildSemi config_key) (init, s)
  let acc := res.1
  let default_value :=
    match acc.default_value with
    | some v => v
    | none => PyVal.str []
  ((default_value, acc.rules, acc.value_type, acc.attributes_needed,
    acc.skipped_keys), res.2)

/-- A concrete client state used by the closed theorems: empty remote,
cache not yet loaded. -/
def gbInit : GBState := { remote := [], cacheLoaded := false, cache := [], nextId := 0 }

theorem not_mem_simple_keys_of_eq {k : Str} (h : '=' ∈ k) : k ∉ SIMPLE_KEYS := by
  intro hm
  simp only [SIMPLE_KEYS, List.mem_cons, List.not_mem_nil, or_false] at hm
  rcases hm with h1 | h1 | h1 | h1 | h1 | h1 | h1 | h1 <;>
    (subst h1; revert h; decide)

theorem ne_default_of_eq_mem {k : Str} (h : '=' ∈ k) : k ≠ S ("default") := by
  intro he
  subst he
  revert h
  decide

theorem countP_eq_pos_of_mem {sep : Char} {vp : Str} (hsep : sep ≠ '=')
    (h : '=' ∈ vp) : 0 < partsWithEquals sep vp := by
  rcases exists_part_of_mem (fun he => hsep he.symm) h with ⟨p, hp, hep⟩
  rw [partsWithEquals, List.countP_pos_iff]
  exact ⟨p, hp, by simpa using hep⟩

/-- Two `key=value` parts joined by a separator character parse to the
two-entry conjunction, whichever separator is used. -/
theorem parseSepConditions_pair (sep : Char) (a b c d : Str)
    (hsep : sep ≠ '=') (ha : sep ∉ a) (hb : sep ∉ b) (hc : sep ∉ c) (hd : sep ∉ d)
    (hea : '=' ∉ a) (hec : '=' ∉ c) (hac : a ≠ c) :
    parseSepConditions sep ((a ++ '=' :: b) ++ sep :: (c ++ '=' :: d)) =
      ([(a, b), (c, d)], insert c (insert a (∅ : Finset Str))) := by
  have hfst : sep ∉ a ++ '=' :: b := by
    simp only [List.mem_append, List.mem_cons]
    push_neg
    exact ⟨ha, fun he => hsep he, hb⟩
  have hsnd : sep ∉ c ++ '=' :: d := by
    simp only [List.mem_append, List.mem_cons]
    push_neg
    exact ⟨hc, fun he => hsep he, hd⟩
  have hsplit :
      splitOnChar sep ((a ++ '=' :: b) ++ sep :: (c ++ '=' :: d)) =
        [a ++ '=' :: b, c ++ '=' :: d] := by
    rw [splitOnChar_append_sep _ hfst, splitOnChar_not_mem hsnd]
  have hmem1 : '=' ∈ a ++ '=' :: b := by
    simp [List.mem_append]
  have hmem2 : '=' ∈ c ++ '=' :: d := by
    simp [List.mem_append]
  rw [parseSepConditions, hsplit]
  simp only [List.foldl_cons, List.foldl_nil, if_pos hmem1, if_pos hmem2]
  rw [beforeFirst_append b hea, afterFirst_append b hea,
    beforeFirst_append d hec, afterFirst_append d hec]
  have hset : dictSet ([] : List (Str × Str)) a b = [(a, b)] := rfl
  have hset2 : dictSet [(a, b)] c d = [(a, b), (c, d)] := by
    simp [dictSet, hac]
  rw [hset, hset2]

theorem append_sep_assoc (a b r : Str) (x : Char) :
    (a ++ '=' :: b) ++ x :: r = a ++ '=' :: (b ++ x :: r) := by
  simp

theorem afterFirst_key (a b r : Str) (x : Char) (hea : '=' ∉ a) :
    afterFirst '=' ((a ++ '=' :: b) ++ x :: r) = b ++ x :: r := by
  rw [append_sep_assoc, afterFirst_append _ hea]

theorem eq_mem_key (a b r : Str) (x : Char) : '=' ∈ (a ++ '=' :: b) ++ x :: r := by
  simp

/-- The hyphen form `attr=val-attr2=val2` (no ampersand, no semicolon) is
flagged by `_has_unsupported_separator`. -/
theorem hasUnsupportedSeparator_hyphen (a b c d : Str)
    (hea : '=' ∉ a)
    (hamp : '&' ∉ (a ++ '=' :: b) ++ '-' :: (c ++ '=' :: d))
    (hsem : ';' ∉ b ++ '-' :: (c ++ '=' :: d)) :
    hasUnsupportedSeparator ((a ++ '=' :: b) ++ '-' :: (c ++ '=' :: d)) = true := by
  have hmem : '=' ∈ (a ++ '=' :: b) ++ '-' :: (c ++ '=' :: d) := eq_mem_key a b _ '-'
  have hvp : afterFirst '=' ((a ++ '=' :: b) ++ '-' :: (c ++ '=' :: d)) =
      b ++ '-' :: (c ++ '=' :: d) := afterFirst_key a b _ '-' hea
  have hhyp : '-' ∈ b ++ '-' :: (c ++ '=' :: d) := by simp
  have heq : '=' ∈ b ++ '-' :: (c ++ '=' :: d) := by simp
  rw [hasUnsupportedSeparator]
  rw [if_neg (not_not_intro hmem), if_neg hamp]
  simp only [hvp]
  rw [if_neg (by
    intro hcon
    exact hsem hcon.1)]
  rw [if_pos ⟨hhyp, countP_eq_pos_of_mem (by decide) heq⟩]

/-- The semicolon form `attr=val;attr2=val2` (no ampersand) is flagged by
`_has_unsupported_separator`. -/
theorem hasUnsupportedSeparator_semicolon (a b c d : Str)
    (hea : '=' ∉ a)
    (hamp : '&' ∉ (a ++ '=' :: b) ++ ';' :: (c ++ '=' :: d)) :
    hasUnsupportedSeparator ((a ++ '=' :: b) ++ ';' :: (c ++ '=' :: d)) = true := by
  have hmem : '=' ∈ (a ++ '=' :: b) ++ ';' :: (c ++ '=' :: d) := eq_mem_key a b _ ';'
  have hvp : afterFirst '=' ((a ++ '=' :: b) ++ ';' :: (c ++ '=' :: d)) =
      b ++ ';' :: (c ++ '=' :: d) := afterFirst_key a b _ ';' hea
  have hsc : ';' ∈ b ++ ';' :: (c ++ '=' :: d) := by simp
  have heq : '=' ∈ b ++ ';' :: (c ++ '=' :: d) := by simp
  rw [hasUnsupportedSeparator]
  rw [if_neg (not_not_intro hmem), if_neg hamp]
  simp only [hvp]
  rw [if_pos ⟨hsc, countP_eq_pos_of_mem (by decide) heq⟩]

/-- The semicolon-supporting separator check accepts any key whose value
portion is hyphen-free. -/
theorem hasUnsupportedSeparatorSemiSupported_eq_false (k : Str)
    (hh : '-' ∉ afterFirst '=' k) :
    hasUnsupportedSeparatorSemiSupported k = false := by
  rw [hasUnsupportedSeparatorSemiSupported]
  by_cases h1 : '=' ∉ k
  · rw [if_pos h1]
  · rw [if_neg h1]
    by_cases h2 : '&' ∈ k
    · rw [if_pos h2]
    · rw [if_neg h2]
      show (if '-' ∈ afterFirst '=' k ∧ 0 < partsWithEquals '-' (afterFirst '=' k)
            then true else false) = false
      rw [if_neg (fun hcon => hh hcon.1)]

theorem process_single_skipped (s : GBState) (ck : Option Str) (k : Str) (v : PyVal)
    (hkd : k ≠ S ("default")) (hsep : hasUnsupportedSeparator k = true) :
    process_config_to_rules s [(k, v)] ck =
      ((PyVal.str [], [], S ("string"), ∅,
        [{ config_key := ck, child_key := k,
           reason := S ("unsupported_separator_") ++
             (if ';' ∈ k then S ("semicolon") else S ("hyphen")),
           value := extractValue v }]), s) := by
  rw [process_config_to_rules]
  simp only [List.foldl_cons, List.foldl_nil, processChild]
  rw [if_neg hkd, if_pos hsep]
  rfl

theorem processSemi_single_semicolon (s : GBState) (ck : Option Str) (k : Str) (v : PyVal)
    (hkd : k ≠ S ("default")) (hflag : hasUnsupportedSeparatorSemiSupported k = false)
    (hsk : k ∉ SIMPLE_KEYS) (hamp : '&' ∉ k) (hsem : ';' ∈ k) :
    process_config_to_rules_semi s [(k, v)] ck =
      ((PyVal.str [],
        [{ value := extractValue v, description := k, enabled := true,
           condition := [],
           savedGroupTargeting :=
             [{ matchType := S ("all"),
                savedGroups := [(ensure_saved_group s k (parseSepConditions ';' k).1).1] }] }],
        S ("string"), ∅ ∪ (parseSepConditions ';' k).2, []),
       (ensure_saved_group s k (parseSepConditions ';' k).1).2) := by
  rw [process_config_to_rules_semi]
  simp only [List.foldl_cons, List.foldl_nil, processChildSemi]
  rw [if_neg hkd, if_neg (by rw [hflag]; exact Bool.false_ne_true), if_neg hsk,
    if_neg hamp, if_pos hsem]
  rfl

theorem processChild_fields_of_ne_default (ck : Option Str) (st : ProcessAcc × GBState)
    (child : Str × PyVal) (h : child.1 ≠ S ("default")) :
    (processChild ck st child).1.default_value = st.1.default_value ∧
    (processChild ck st child).1.value_type = st.1.value_type := by
  obtain ⟨acc, s⟩ := st
  obtain ⟨k, v⟩ := child
  simp only [processChild]
  rw [if_neg h]
  split_ifs <;> exact ⟨rfl, rfl⟩

theorem foldl_processChild_no_default (ck : Option Str) (cfg : List (Str × PyVal)) :
    ∀ (acc : ProcessAcc) (s : GBState), (S ("default")) ∉ cfg.map Prod.fst →
      ((cfg.foldl (processChild ck) (acc, s)).1.default_value = acc.default_value ∧
       (cfg.foldl (processChild ck) (acc, s)).1.value_type = acc.value_type) := by
  induction cfg with
  | nil => exact fun acc s _ => ⟨rfl, rfl⟩
  | cons child rest ih =>
    intro acc s h
    simp only [List.map_cons, List.mem_cons] at h
    push_neg at h
    simp only [List.foldl_cons]
    have hne : child.1 ≠ S ("default") := fun he => h.1 he.symm
    have hp := processChild_fields_of_ne_default ck (acc, s) child hne
    have hrest := ih (processChild ck (acc, s) child).1
      (processChild ck (acc, s) child).2 h.2
    exact ⟨hrest.1.trans hp.1, hrest.2.trans hp.2⟩

theorem foldl_processChild_value_type (ck : Option Str) (cfg : List (Str × PyVal)) :
    ∀ (acc : ProcessAcc) (s : GBState), (cfg.map Prod.fst).Nodup →
      (cfg.foldl (processChild ck) (acc, s)).1.value_type =
        (match dictGet cfg (S ("default")) with
         | some v => inferValueType (extractValue v)
         | none => acc.value_type) := by
  induction cfg with
  | nil => intro acc s _; rfl
  | cons child rest ih =>
    intro acc s h
    obtain ⟨k, v⟩ := child
    simp only [List.map_cons, List.nodup_cons] at h
    simp only [List.foldl_cons]
    by_cases hk : k = S ("default")
    · subst hk
      have hstep : processChild ck (acc, s) (S ("default"), v) =
          ({ acc with default_value := some (extractValue v),
                      value_type := inferValueType (extractValue v) }, s) := rfl
      rw [hstep]
      have hnd := foldl_processChild_no_default ck rest
        { acc with default_value := some (extractValue v),
                   value_type := inferValueType (extractValue v) } s h.1
      rw [hnd.2]
      simp [dictGet]
    · have hp := processChild_fields_of_ne_default ck (acc, s) (k, v) hk
      have hrest := ih (processChild ck (acc, s) (k, v)).1
        (processChild ck (acc, s) (k, v)).2 h.2
      rw [hrest, hp.2]
      have hget : dictGet ((k, v) :: rest) (S ("default")) =
          dictGet rest (S ("default")) := by
        simp [dictGet, hk]
      rw [hget]

theorem dictGet_foldl_dictSet {α : Type} (cfg : List (Str × α)) :
    ∀ (m : List (Str × α)) (k : Str),
      dictGet (cfg.foldl (fun m kv => dictSet m kv.1 kv.2) m) k =
        (match dictGet cfg.reverse k with
         | some v => some v
         | none => dictGet m k) := by
  induction cfg with
  | nil => intro m k; simp [dictGet]
  | cons kv rest ih =>
    intro m k
    obtain ⟨k1, v1⟩ := kv
    simp only [List.foldl_cons, List.reverse_cons]
    rw [ih]
    rw [dictGet_append]
    cases hr : dictGet rest.reverse k with
    | some v => rfl
    | none =>
      rw [dictGet_dictSet]
      by_cases h1 : k1 = k
      · subst h1
        simp [dictGet]
      · have hk : ¬ k = k1 := fun h => h1 h.symm
        simp [dictGet, h1, hk]

theorem dictGet_foldl_merge_none (B : List Config) :
    ∀ (M : Config) (k : Str), (∀ c ∈ B, dictGet c k = none) →
      dictGet (B.foldl (fun merged config =>
        config.foldl (fun m kv => dictSet m kv.1 kv.2) merged) M) k = dictGet M k := by
  induction B with
  | nil => intro M k _; rfl
  | cons c rest ih =>
    intro M k h
    simp only [List.foldl_cons]
    rw [ih _ k (fun c2 hc2 => h c2 (List.mem_cons_of_mem c hc2))]
    rw [dictGet_foldl_dictSet]
    rw [dictGet_reverse_eq_none c k (h c (List.mem_cons_self c rest))]

/-- The sorted merge returns, for each key, the value of the
highest-priority fragment that defines that key (fragment priorities
pairwise distinct, fragment keys duplicate-free as Python dictionaries
are). -/
theorem mergeFragments_highest_wins (fs : List (Nat × Config)) (k : Str)
    (p0 : Nat) (m0 : Config)
    (hdist : fs.Pairwise (fun x y => x.1 ≠ y.1))
    (hmem : (p0, m0) ∈ fs)
    (hdef : (dictGet m0 k).isSome)
    (hnd : (m0.map Prod.fst).Nodup)
    (hmax : ∀ p m, (p, m) ∈ fs → (dictGet m k).isSome → p ≤ p0) :
    dictGet (mergeFragments fs) k = dictGet m0 k := by
  have hperm : (sortFragments fs).Perm fs := List.perm_insertionSort fragLE fs
  have hsorted : (sortFragments fs).Pairwise fragLE :=
    List.sorted_insertionSort fragLE fs
  have hdistL : (sortFragments fs).Pairwise (fun x y => x.1 ≠ y.1) :=
    (hperm.pairwise_iff (fun h => h.symm)).mpr hdist
  have hmemL : (p0, m0) ∈ sortFragments fs := (List.mem_insertionSort fragLE).mpr hmem
  obtain ⟨pre, post, hL⟩ := List.append_of_mem hmemL
  have hpost : ∀ y ∈ post, dictGet y.2 k = none := by
    intro y hy
    have hrel : fragLE (p0, m0) y := by
      have := (List.pairwise_append.mp (hL ▸ hsorted)).2.1
      exact (List.pairwise_cons.mp this).1 y hy
    have hne : (p0, m0).1 ≠ y.1 := by
      have := (List.pairwise_append.mp (hL ▸ hdistL)).2.1
      exact (List.pairwise_cons.mp this).1 y hy
    have hyfs : y ∈ fs := hperm.mem_iff.mp (hL ▸ List.mem_append_right pre
      (List.mem_cons_of_mem _ hy))
    by_contra hcon
    have hysome : (dictGet y.2 k).isSome := by
      cases hv : dictGet y.2 k with
      | none => exact absurd hv hcon
      | some v => rfl
    have hle : y.1 ≤ p0 := hmax y.1 y.2 (by simpa using hyfs) hysome
    exact hne (Nat.le_antisymm hrel hle)
  have hmap : (sortFragments fs).map Prod.snd =
      pre.map Prod.snd ++ m0 :: post.map Prod.snd := by
    rw [hL]
    simp
  rw [mergeFragments, hmap, merge_configs]
  rw [List.foldl_append, List.foldl_cons]
  rw [dictGet_foldl_merge_none (post.map Prod.snd) _ k (by
    intro c hc
    rcases List.mem_map.mp hc with ⟨y, hy, hyc⟩
    exact hyc ▸ hpost y hy)]
  rw [dictGet_foldl_dictSet]
  rw [dictGet_reverse_of_nodup m0 k hnd]
  cases hv : dictGet m0 k with
  | none => rw [hv] at hdef; cases hdef
  | some v => rfl

theorem get_priority_index_unmatched (table : List Str) (key : Str)
    (h : ∀ e ∈ table,
      ¬(beforeFirst '=' key = e ∨ e.isPrefixOf (beforeFirst '=' key) = true)) :
    get_priority_index table key = table.length := by
  rw [get_priority_index]
  show (match table.findIdx? (fun priority_key =>
      beforeFirst '=' key == priority_key ||
        priority_key.isPrefixOf (beforeFirst '=' key)) with
    | some i => i
    | none => table.length) = table.length
  have hnone : table.findIdx? (fun priority_key =>
      beforeFirst '=' key == priority_key ||
        priority_key.isPrefixOf (beforeFirst '=' key)) = none := by
    rw [List.findIdx?_eq_none_iff]
    intro e he
    have he2 := h e he
    push_neg at he2
    rw [Bool.or_eq_false_iff]
    exact ⟨beq_eq_false_iff_ne.mpr he2.1, Bool.eq_false_iff.mpr he2.2⟩
  rw [hnone]

theorem get_priority_score_unmatched (vid : Str)
    (h1 : vid ∉ PRIORITY_ORDER)
    (h2 : beforeFirst '=' vid ∉ PRIORITY_ORDER)
    (h3 : (S ("utm_")).isPrefixOf (beforeFirst '=' vid) = false) :
    get_priority_score vid = PRIORITY_ORDER.length / 2 := by
  rw [get_priority_score, if_neg h1]
  by_cases he : '=' ∈ vid
  · rw [if_pos he]
    show (if beforeFirst '=' vid ∈ PRIORITY_ORDER then
        PRIORITY_ORDER.indexOf (beforeFirst '=' vid)
      else if (S ("utm_")).isPrefixOf (beforeFirst '=' vid) ∧
          S ("utm_campaign") ∈ PRIORITY_ORDER then
        PRIORITY_ORDER.indexOf (S ("utm_campaign"))
      else PRIORITY_ORDER.length / 2) = PRIORITY_ORDER.length / 2
    rw [if_neg h2, if_neg (fun hcon => by
      rw [h3] at hcon
      exact Bool.false_ne_true hcon.1)]
  · rw [if_neg he]

/-- C1 (counterexample): with the PriorityOrder table modelled from the
spec (lowest `default` first, highest `country=jp` last),
`reorder_config_value` sorts the block
`default ↦ V0, client_id=42 ↦ V1, country=cn ↦ V2` into the ascending
sequence `default, country=cn, client_id=42`, and not into the claimed
sequence with `client_id=42` first and `default` last. -/
theorem C1_counterexample :
    (reorder_config_value CONSTANTS_PRIORITY_ORDER
      [(S ("default"), PyVal.str (S ("V0"))),
       (S ("client_id=42"), PyVal.str (S ("V1"))),
       (S ("country=cn"), PyVal.str (S ("V2")))]).map Prod.fst =
      [S ("default"), S ("country=cn"), S ("client_id=42")] ∧
    (reorder_config_value CONSTANTS_PRIORITY_ORDER
      [(S ("default"), PyVal.str (S ("V0"))),
       (S ("client_id=42"), PyVal.str (S ("V1"))),
       (S ("country=cn"), PyVal.str (S ("V2")))]).map Prod.fst ≠
      [S ("client_id=42"), S ("country=cn"), S ("default")] := by
  decide

/-- C1 (amended): `reorder_config_value` orders the block ascending by
priority index, `default` first and `client_id=42` last; since
`create_feature` then reverses the formatted rules
(`list(reversed(formatted_rules))`), the rule list actually emitted in the
feature payload is `client_id=42` first, then `country=cn` (the `default`
entry becomes the feature's default value, not a rule), so a first-match
evaluator reading the payload top-down evaluates the high-priority
condition first. -/
theorem C1_reorder_then_reversed_emission :
    (reorder_config_value CONSTANTS_PRIORITY_ORDER
      [(S ("default"), PyVal.str (S ("V0"))),
       (S ("client_id=42"), PyVal.str (S ("V1"))),
       (S ("country=cn"), PyVal.str (S ("V2")))]).map Prod.fst =
      [S ("default"), S ("country=cn"), S ("client_id=42")] ∧
    ((create_feature_payload_rules
      (process_config_to_rules gbInit
        (reorder_config_value CONSTANTS_PRIORITY_ORDER
          [(S ("default"), PyVal.str (S ("V0"))),
           (S ("client_id=42"), PyVal.str (S ("V1"))),
           (S ("country=cn"), PyVal.str (S ("V2")))]) (some (S ("FEATURE")))).1.2.2.1
      (process_config_to_rules gbInit
        (reorder_config_value CONSTANTS_PRIORITY_ORDER
          [(S ("default"), PyVal.str (S ("V0"))),
           (S ("client_id=42"), PyVal.str (S ("V1"))),
           (S ("country=cn"), PyVal.str (S ("V2")))]) (some (S ("FEATURE")))).1.2.1).map
      FormattedRule.description) =
      [S ("client_id=42"), S ("country=cn")] := by
  decide

/-- C5 (counterexample): on `a=b-c=d` the hyphen is judged a separator by
`_has_unsupported_separator` although only one of the parts obtained by
splitting the value portion `b-c=d` on `-` contains an `=` — the claimed
two-or-more-parts detection rule would call this key safe. -/
theorem C5_counterexample :
    hasUnsupportedSeparator (S ("a=b-c=d")) = true ∧
    partsWithEquals '-' (afterFirst '=' (S ("a=b-c=d"))) = 1 ∧
    ¬ 2 ≤ partsWithEquals '-' (afterFirst '=' (S ("a=b-c=d"))) := by
  decide

/-- C5 (amended): for a key containing `=` and no ampersand,
`_has_unsupported_separator` judges a candidate character a separator
exactly when the candidate occurs in the value portion and at least one
part of the value portion split on it contains its own `=` (semicolon is
checked first, then hyphen); when an ampersand is present, hyphens are
never flagged and a semicolon is flagged exactly when the value portion
contains both `;` and `=`.  A candidate inside a single value with no
`=` after it, as in `utm_medium=non-rtb`, is never judged a separator. -/
theorem C5_separator_detection :
    (∀ key : Str, '=' ∈ key → '&' ∉ key →
      (hasUnsupportedSeparator key = true ↔
        ((';' ∈ afterFirst '=' key ∧
            0 < partsWithEquals ';' (afterFirst '=' key)) ∨
         ('-' ∈ afterFirst '=' key ∧
            0 < partsWithEquals '-' (afterFirst '=' key))))) ∧
    (∀ key : Str, '=' ∈ key → '&' ∈ key →
      (hasUnsupportedSeparator key = true ↔
        (';' ∈ afterFirst '=' key ∧ '=' ∈ afterFirst '=' key))) ∧
    hasUnsupportedSeparator (S ("utm_medium=non-rtb")) = false := by
  refine ⟨?_, ?_, by decide⟩
  · intro key h1 h2
    rw [hasUnsupportedSeparator, if_neg (not_not_intro h1), if_neg h2]
    show (if ';' ∈ afterFirst '=' key ∧
            0 < partsWithEquals ';' (afterFirst '=' key) then true
          else if '-' ∈ afterFirst '=' key ∧
            0 < partsWithEquals '-' (afterFirst '=' key) then true
          else false) = true ↔ _
    split_ifs with hs hh
    · simp [hs]
    · simp [hh, hs]
    · simp [hs, hh]
  · intro key h1 h2
    rw [hasUnsupportedSeparator, if_neg (not_not_intro h1), if_pos h2]
    show (if ';' ∈ afterFirst '=' key ∧ '=' ∈ afterFirst '=' key then true
          else false) = true ↔ _
    split_ifs with hs
    · simp [hs]
    · simp [hs]

/-- C5 (witness): the detection characterization applied to the concrete
hyphen-separated key `x=1-y=2`. -/
theorem C5_separator_detection_witness :
    hasUnsupportedSeparator (S ("x=1-y=2")) = true ↔
      ((';' ∈ afterFirst '=' (S ("x=1-y=2")) ∧
          0 < partsWithEquals ';' (afterFirst '=' (S ("x=1-y=2")))) ∨
       ('-' ∈ afterFirst '=' (S ("x=1-y=2")) ∧
          0 < partsWithEquals '-' (afterFirst '=' (S ("x=1-y=2"))))) :=
  C5_separator_detection.1 (S ("x=1-y=2")) (by decide) (by decide)

/-- C7 (counterexample): the key `zzz` matches no PriorityOrder entry by
the exact, prefix, or `utm_` rules, yet the rule-reordering ranker
`get_priority_index` of `main.py` returns the length of the table (28),
not its midpoint (14). -/
theorem C7_counterexample :
    (∀ e ∈ CONSTANTS_PRIORITY_ORDER,
      ¬(beforeFirst '=' (S ("zzz")) = e ∨
        e.isPrefixOf (beforeFirst '=' (S ("zzz"))) = true)) ∧
    (S ("zzz")) ∉ PRIORITY_ORDER ∧
    (S ("utm_")).isPrefixOf (S ("zzz")) = false ∧
    get_priority_index CONSTANTS_PRIORITY_ORDER (S ("zzz")) ≠
      CONSTANTS_PRIORITY_ORDER.length / 2 := by
  decide

/-- C7 (amended): for a key unmatched by every PriorityOrder rule, the
fragment-merge ranker `get_priority_score` returns the midpoint
`len(PRIORITY_ORDER) // 2`, while the rule-reordering ranker
`get_priority_index` of `main.py` instead returns `len(PRIORITY_ORDER)`
(one past the last index). -/
theorem C7_unmatched_fallbacks (vid : Str)
    (h1 : vid ∉ PRIORITY_ORDER)
    (h2 : beforeFirst '=' vid ∉ PRIORITY_ORDER)
    (h3 : (S ("utm_")).isPrefixOf (beforeFirst '=' vid) = false)
    (h4 : ∀ e ∈ CONSTANTS_PRIORITY_ORDER,
      ¬(beforeFirst '=' vid = e ∨ e.isPrefixOf (beforeFirst '=' vid) = true)) :
    get_priority_score vid = PRIORITY_ORDER.length / 2 ∧
    get_priority_index CONSTANTS_PRIORITY_ORDER vid =
      CONSTANTS_PRIORITY_ORDER.length :=
  ⟨get_priority_score_unmatched vid h1 h2 h3,
   get_priority_index_unmatched CONSTANTS_PRIORITY_ORDER vid h4⟩

/-- C7 (witness): the two fallback values at the concrete unmatched key
`zzz`. -/
theorem C7_unmatched_fallbacks_witness :
    get_priority_score (S ("zzz")) = PRIORITY_ORDER.length / 2 ∧
    get_priority_index CONSTANTS_PRIORITY_ORDER (S ("zzz")) =
      CONSTANTS_PRIORITY_ORDER.length :=
  C7_unmatched_fallbacks (S ("zzz")) (by decide) (by decide) (by decide) (by decide)

theorem ensure_saved_group_cache_hit (s : GBState) (name : Str) (g : SavedGroup)
    (cond : List (Str × Str))
    (hl : s.cacheLoaded = true) (hm : dictGet s.cache name = some g) :
    ensure_saved_group s name cond = (some g.id, s) := by
  have hs1 : list_saved_groups s = s := by rw [list_saved_groups, if_pos hl]
  rw [ensure_saved_group]
  show (match dictGet (list_saved_groups s).cache name with
        | some existing => (some existing.id, list_saved_groups s)
        | none => create_saved_group (list_saved_groups s) name cond) = (some g.id, s)
  rw [hs1, hm]

/-- C8: with the cache loaded and the name not yet cached, the first
`ensure_saved_group` call creates and caches a group and returns its fresh
identifier; a second call with the same name and the unchanged condition
returns that identical identifier and leaves the state untouched; and on
the cache hit the requested condition is not consulted at all — the call
returns the same result for every condition argument (pure name lookup,
no re-validation). -/
theorem C8_cached_group_reuse (s : GBState) (name : Str) (cond : List (Str × Str))
    (hl : s.cacheLoaded = true) (hm : dictGet s.cache name = none) :
    (ensure_saved_group s name cond).1 = some (genId s.nextId) ∧
    ensure_saved_group (ensure_saved_group s name cond).2 name cond =
      ((ensure_saved_group s name cond).1, (ensure_saved_group s name cond).2) ∧
    (∀ cond2 : List (Str × Str),
      ensure_saved_group (ensure_saved_group s name cond).2 name cond2 =
        ensure_saved_group (ensure_saved_group s name cond).2 name cond) := by
  have hs1 : list_saved_groups s = s := by rw [list_saved_groups, if_pos hl]
  have h1 : ensure_saved_group s name cond = create_saved_group s name cond := by
    rw [ensure_saved_group]
    show (match dictGet (list_saved_groups s).cache name with
          | some existing => (some existing.id, list_saved_groups s)
          | none => create_saved_group (list_saved_groups s) name cond) =
        create_saved_group s name cond
    rw [hs1, hm]
  have hget : dictGet (create_saved_group s name cond).2.cache name =
      some { name := name, id := genId s.nextId, condition := conditionDumps cond } := by
    show dictGet (dictSet (dictSet s.cache name
        { name := name, id := genId s.nextId, condition := conditionDumps cond })
        (genId s.nextId)
        { name := name, id := genId s.nextId, condition := conditionDumps cond })
        name = _
    rw [dictGet_dictSet]
    by_cases hgn : genId s.nextId = name
    · rw [if_pos hgn]
    · rw [if_neg hgn, dictGet_dictSet, if_pos rfl]
  have hl2 : (create_saved_group s name cond).2.cacheLoaded = true := hl
  have hhit : ∀ cond2 : List (Str × Str),
      ensure_saved_group (create_saved_group s name cond).2 name cond2 =
        (some (genId s.nextId), (create_saved_group s name cond).2) :=
    fun cond2 => ensure_saved_group_cache_hit _ name _ cond2 hl2 hget
  refine ⟨by rw [h1]; rfl, ?_, ?_⟩
  · rw [h1, hhit cond]
    rfl
  · intro cond2
    rw [h1, hhit cond2, hhit cond]

/-- C8 (witness): the reuse behavior at a concrete loaded-but-empty client
state, group name `beta`, and two different conditions. -/
theorem C8_cached_group_reuse_witness :
    (ensure_saved_group
      { remote := [], cacheLoaded := true, cache := [], nextId := 0 }
      (S ("beta")) [(S ("is_beta"), S ("true"))]).1 =
      some (genId 0) ∧
    ensure_saved_group
      (ensure_saved_group
        { remote := [], cacheLoaded := true, cache := [], nextId := 0 }
        (S ("beta")) [(S ("is_beta"), S ("true"))]).2
      (S ("beta")) [(S ("is_beta"), S ("true"))] =
      ((ensure_saved_group
        { remote := [], cacheLoaded := true, cache := [], nextId := 0 }
        (S ("beta")) [(S ("is_beta"), S ("true"))]).1,
       (ensure_saved_group
        { remote := [], cacheLoaded := true, cache := [], nextId := 0 }
        (S ("beta")) [(S ("is_beta"), S ("true"))]).2) ∧
    (∀ cond2 : List (Str × Str),
      ensure_saved_group
        (ensure_saved_group
          { remote := [], cacheLoaded := true, cache := [], nextId := 0 }
          (S ("beta")) [(S ("is_beta"), S ("true"))]).2
        (S ("beta")) cond2 =
      ensure_saved_group
        (ensure_saved_group
          { remote := [], cacheLoaded := true, cache := [], nextId := 0 }
          (S ("beta")) [(S ("is_beta"), S ("true"))]).2
        (S ("beta")) [(S ("is_beta"), S ("true"))]) :=
  C8_cached_group_reuse
    { remote := [], cacheLoaded := true, cache := [], nextId := 0 }
    (S ("beta")) [(S ("is_beta"), S ("true"))] rfl rfl

/-- C9: `_infer_value_type` maps booleans to `boolean`, ints and floats to
`number`, lists and dictionaries to `json`, strings to `string`; in
`process_config_to_rules` the inference is applied exactly once per
feature, to the extracted value of the `default` key (the type is
`string` when no `default` key exists); for the block
`default ↦ [1, 2, 3]` the inferred type is `json` and the serialized
default value `create_feature` sends equals the JSON encoding `[1, 2, 3]`;
for every non-`json` type the value is serialized with `str(...)`. -/
theorem C9_value_type_inference :
    (∀ b, inferValueType (PyVal.bool b) = S ("boolean")) ∧
    (∀ n : Int, inferValueType (PyVal.int n) = S ("number")) ∧
    (∀ q : Rat, inferValueType (PyVal.float q) = S ("number")) ∧
    (∀ xs, inferValueType (PyVal.list xs) = S ("json")) ∧
    (∀ kvs, inferValueType (PyVal.dict kvs) = S ("json")) ∧
    (∀ t, inferValueType (PyVal.str t) = S ("string")) ∧
    (∀ (s : GBState) (cfg : List (Str × PyVal)) (ck : Option Str),
      (cfg.map Prod.fst).Nodup →
      (process_config_to_rules s cfg ck).1.2.2.1 =
        (match dictGet cfg (S ("default")) with
         | some v => inferValueType (extractValue v)
         | none => S ("string"))) ∧
    (process_config_to_rules gbInit
      [(S ("default"), PyVal.list [PyVal.int 1, PyVal.int 2, PyVal.int 3])]
      none).1.2.2.1 = S ("json") ∧
    create_feature_default_value (S ("json"))
      (PyVal.list [PyVal.int 1, PyVal.int 2, PyVal.int 3]) =
      jsonDumps (PyVal.list [PyVal.int 1, PyVal.int 2, PyVal.int 3]) ∧
    jsonDumps (PyVal.list [PyVal.int 1, PyVal.int 2, PyVal.int 3]) =
      S ("[1, 2, 3]") ∧
    (∀ (vt : Str) (dv : PyVal), vt ≠ S ("json") →
      create_feature_default_value vt dv = pyStr dv) := by
  refine ⟨fun b => by cases b <;> rfl, fun n => rfl, fun q => rfl, fun xs => rfl,
    fun kvs => rfl, fun t => rfl, ?_, by decide, by decide, by decide,
    fun vt dv h => by rw [create_feature_default_value, if_neg h]⟩
  intro s cfg ck hnd
  exact foldl_processChild_value_type ck cfg
    { default_value := none, rules := [], value_type := S ("string"),
      attributes_needed := ∅, skipped_keys := [] } s hnd

/-- C9 (witness): the once-per-feature inference and the raw-string
serialization applied at concrete inputs. -/
theorem C9_value_type_inference_witness :
    (process_config_to_rules gbInit
      [(S ("default"), PyVal.bool true), (S ("beta"), PyVal.str (S ("b")))]
      none).1.2.2.1 =
      (match dictGet [(S ("default"), PyVal.bool true),
        (S ("beta"), PyVal.str (S ("b")))] (S ("default")) with
       | some v => inferValueType (extractValue v)
       | none => S ("string")) ∧
    create_feature_default_value (S ("string")) (PyVal.str (S ("x"))) =
      pyStr (PyVal.str (S ("x"))) :=
  ⟨C9_value_type_inference.2.2.2.2.2.2.1 gbInit
    [(S ("default"), PyVal.bool true), (S ("beta"), PyVal.str (S ("b")))]
    none (by decide),
   C9_value_type_inference.2.2.2.2.2.2.2.2.2.2 (S ("string"))
    (PyVal.str (S ("x"))) (by decide)⟩

/-- C10: for a dictionary configuration block with no `default` key,
`process_config_to_rules` returns the empty string as the default value
and `string` as the value type after processing the other child keys; and
`_extract_value` unwraps a one-element list to its element, turns an empty
list into the empty string, and leaves longer lists (and non-lists)
unchanged. -/
theorem C10_missing_default :
    (∀ (s : GBState) (cfg : List (Str × PyVal)) (ck : Option Str),
      (S ("default")) ∉ cfg.map Prod.fst →
      ((process_config_to_rules s cfg ck).1.1 = PyVal.str [] ∧
       (process_config_to_rules s cfg ck).1.2.2.1 = S ("string"))) ∧
    (∀ x, extractValue (PyVal.list [x]) = x) ∧
    extractValue (PyVal.list []) = PyVal.str [] ∧
    (∀ x y xs, extractValue (PyVal.list (x :: y :: xs)) =
      PyVal.list (x :: y :: xs)) := by
  refine ⟨?_, fun x => rfl, rfl, fun x y xs => rfl⟩
  intro s cfg ck h
  have hd := foldl_processChild_no_default ck cfg
    { default_value := none, rules := [], value_type := S ("string"),
      attributes_needed := ∅, skipped_keys := [] } s h
  constructor
  · show (match (cfg.foldl (processChild ck)
        ({ default_value := none, rules := [], value_type := S ("string"),
           attributes_needed := ∅, skipped_keys := [] }, s)).1.default_value with
       | some v => v
       | none => PyVal.str []) = PyVal.str []
    rw [hd.1]
  · show (cfg.foldl (processChild ck)
        ({ default_value := none, rules := [], value_type := S ("string"),
           attributes_needed := ∅, skipped_keys := [] }, s)).1.value_type = S ("string")
    rw [hd.2]

/-- C10 (witness): the missing-default fallback at a concrete block with a
single `country=cn` child key. -/
theorem C10_missing_default_witness :
    (process_config_to_rules gbInit
      [(S ("country=cn"), PyVal.str (S ("u")))] none).1.1 = PyVal.str [] ∧
    (process_config_to_rules gbInit
      [(S ("country=cn"), PyVal.str (S ("u")))] none).1.2.2.1 = S ("string") :=
  C10_missing_default.1 gbInit [(S ("country=cn"), PyVal.str (S ("u")))] none
    (by decide)

theorem not_mem_key_shape {x : Char} {a b c d : Str} (sep : Char)
    (hx1 : x ≠ '=') (hx2 : x ≠ sep)
    (ha : x ∉ a) (hb : x ∉ b) (hc : x ∉ c) (hd : x ∉ d) :
    x ∉ (a ++ '=' :: b) ++ sep :: (c ++ '=' :: d) := by
  intro hmem
  rcases List.mem_append.mp hmem with h | h
  · rcases List.mem_append.mp h with h1 | h1
    · exact ha h1
    · rcases List.mem_cons.mp h1 with h2 | h2
      · exact hx1 h2
      · exact hb h2
  · rcases List.mem_cons.mp h with h1 | h1
    · exact hx2 h1
    · rcases List.mem_append.mp h1 with h2 | h2
      · exact hc h2
      · rcases List.mem_cons.mp h2 with h3 | h3
        · exact hx1 h3
        · exact hd h3

theorem not_mem_vp_shape {x : Char} {b c d : Str} (sep : Char)
    (hx1 : x ≠ '=') (hx2 : x ≠ sep) (hb : x ∉ b) (hc : x ∉ c) (hd : x ∉ d) :
    x ∉ b ++ sep :: (c ++ '=' :: d) := by
  intro hmem
  rcases List.mem_append.mp hmem with h | h
  · exact hb h
  · rcases List.mem_cons.mp h with h1 | h1
    · exact hx2 h1
    · rcases List.mem_append.mp h1 with h2 | h2
      · exact hc h2
      · rcases List.mem_cons.mp h2 with h3 | h3
        · exact hx1 h3
        · exact hd h3

/-- C3: an ampersand-joined key `a=b&c=d` (each part containing its own
`=`, attribute names distinct) parses to exactly the two-entry conjunction
with the value taken from the text after the first `=` of each part, and
swapping the order of the two parts changes neither the resulting map (as
a function) nor the attribute set. -/
theorem C3_ampersand_conjunction (a b c d : Str)
    (ha : '&' ∉ a) (hb : '&' ∉ b) (hc : '&' ∉ c) (hd : '&' ∉ d)
    (hea : '=' ∉ a) (hec : '=' ∉ c) (hac : a ≠ c) :
    parse_ampersand_conditions ((a ++ '=' :: b) ++ '&' :: (c ++ '=' :: d)) =
      ([(a, b), (c, d)], {a, c}) ∧
    (∀ x, dictGet
        (parse_ampersand_conditions ((c ++ '=' :: d) ++ '&' :: (a ++ '=' :: b))).1 x =
      dictGet
        (parse_ampersand_conditions ((a ++ '=' :: b) ++ '&' :: (c ++ '=' :: d))).1 x) ∧
    (parse_ampersand_conditions ((c ++ '=' :: d) ++ '&' :: (a ++ '=' :: b))).2 =
      (parse_ampersand_conditions ((a ++ '=' :: b) ++ '&' :: (c ++ '=' :: d))).2 := by
  have h1 := parseSepConditions_pair '&' a b c d (by decide) ha hb hc hd hea hec hac
  have h2 := parseSepConditions_pair '&' c d a b (by decide) hc hd ha hb hec hea
    (fun he => hac he.symm)
  refine ⟨?_, ?_, ?_⟩
  · rw [parse_ampersand_conditions, h1]
    have hset : insert c (insert a (∅ : Finset Str)) = {a, c} := by
      ext x
      simp [or_comm]
    rw [hset]
  · intro x
    rw [parse_ampersand_conditions, parse_ampersand_conditions, h1, h2]
    show dictGet [(c, d), (a, b)] x = dictGet [(a, b), (c, d)] x
    by_cases hxa : a = x
    · have hxc : ¬ c = x := fun he => hac (hxa.trans he.symm)
      simp [dictGet, hxa, hxc]
    · by_cases hxc : c = x
      · simp [dictGet, hxa, hxc]
      · simp [dictGet, hxa, hxc]
  · rw [parse_ampersand_conditions, parse_ampersand_conditions, h1, h2]
    exact Finset.Insert.comm a c ∅

/-- C3 (witness): the conjunctive parse at the concrete key
`utm_campaign=x&utm_medium=y`. -/
theorem C3_ampersand_conjunction_witness :
    parse_ampersand_conditions
      ((S ("utm_campaign") ++ '=' :: S ("x")) ++ '&' ::
        (S ("utm_medium") ++ '=' :: S ("y"))) =
      ([(S ("utm_campaign"), S ("x")), (S ("utm_medium"), S ("y"))],
       {S ("utm_campaign"), S ("utm_medium")}) :=
  (C3_ampersand_conjunction (S ("utm_campaign")) (S ("x")) (S ("utm_medium"))
    (S ("y")) (by decide) (by decide) (by decide) (by decide) (by decide)
    (by decide) (by decide)).1

/-- C4: a key using a hyphen between two `key=value` segments with no
ampersand (and no semicolon) is classified unsupported with the
hyphen-separation reason, `process_config_to_rules` emits zero rules for
it and records exactly one `{config_key, child_key, reason, value}`
entry, and `_log_exceptions` appends the new records after the existing
ledger, never truncating it. -/
theorem C4_hyphen_key_skipped_and_logged (s : GBState) (ck : Option Str)
    (v : PyVal) (existing : List SkippedKey) (a b c d : Str)
    (hea : '=' ∉ a)
    (ha : '&' ∉ a) (hb : '&' ∉ b) (hc : '&' ∉ c) (hd : '&' ∉ d)
    (hsa : ';' ∉ a) (hsb : ';' ∉ b) (hsc : ';' ∉ c) (hsd : ';' ∉ d) :
    hasUnsupportedSeparator ((a ++ '=' :: b) ++ '-' :: (c ++ '=' :: d)) = true ∧
    (process_config_to_rules s
      [((a ++ '=' :: b) ++ '-' :: (c ++ '=' :: d), v)] ck).1.2.1 = [] ∧
    (process_config_to_rules s
      [((a ++ '=' :: b) ++ '-' :: (c ++ '=' :: d), v)] ck).1.2.2.2.2 =
      [{ config_key := ck, child_key := (a ++ '=' :: b) ++ '-' :: (c ++ '=' :: d),
         reason := S ("unsupported_separator_hyphen"),
         value := extractValue v }] ∧
    (∃ tail, log_exceptions existing
      ((process_config_to_rules s
        [((a ++ '=' :: b) ++ '-' :: (c ++ '=' :: d), v)] ck).1.2.2.2.2) =
        existing ++ tail) := by
  have hamp : '&' ∉ (a ++ '=' :: b) ++ '-' :: (c ++ '=' :: d) :=
    not_mem_key_shape '-' (by decide) (by decide) ha hb hc hd
  have hsemvp : ';' ∉ b ++ '-' :: (c ++ '=' :: d) :=
    not_mem_vp_shape '-' (by decide) (by decide) hsb hsc hsd
  have hsck : ';' ∉ (a ++ '=' :: b) ++ '-' :: (c ++ '=' :: d) :=
    not_mem_key_shape '-' (by decide) (by decide) hsa hsb hsc hsd
  have hdet := hasUnsupportedSeparator_hyphen a b c d hea hamp hsemvp
  have hkd : (a ++ '=' :: b) ++ '-' :: (c ++ '=' :: d) ≠ S ("default") :=
    ne_default_of_eq_mem (eq_mem_key a b _ '-')
  have happly := process_single_skipped s ck _ v hkd hdet
  refine ⟨hdet, ?_, ?_, ⟨_, rfl⟩⟩
  · rw [happly]
  · rw [happly, if_neg hsck]
    rfl

/-- C4 (witness): the hyphen key `k=v-k2=v2` (the shape used in
`test_separators.py`) is skipped and logged. -/
theorem C4_hyphen_key_skipped_and_logged_witness :
    hasUnsupportedSeparator
      ((S ("k") ++ '=' :: S ("v")) ++ '-' :: (S ("k2") ++ '=' :: S ("v2"))) = true ∧
    (process_config_to_rules gbInit
      [((S ("k") ++ '=' :: S ("v")) ++ '-' :: (S ("k2") ++ '=' :: S ("v2")),
        PyVal.str (S ("u")))] (some (S ("TEST_CONFIG")))).1.2.1 = [] ∧
    (process_config_to_rules gbInit
      [((S ("k") ++ '=' :: S ("v")) ++ '-' :: (S ("k2") ++ '=' :: S ("v2")),
        PyVal.str (S ("u")))] (some (S ("TEST_CONFIG")))).1.2.2.2.2 =
      [{ config_key := some (S ("TEST_CONFIG")),
         child_key := (S ("k") ++ '=' :: S ("v")) ++ '-' ::
           (S ("k2") ++ '=' :: S ("v2")),
         reason := S ("unsupported_separator_hyphen"),
         value := extractValue (PyVal.str (S ("u"))) }] ∧
    (∃ tail, log_exceptions []
      ((process_config_to_rules gbInit
        [((S ("k") ++ '=' :: S ("v")) ++ '-' :: (S ("k2") ++ '=' :: S ("v2")),
          PyVal.str (S ("u")))] (some (S ("TEST_CONFIG")))).1.2.2.2.2) =
        [] ++ tail) :=
  C4_hyphen_key_skipped_and_logged gbInit (some (S ("TEST_CONFIG")))
    (PyVal.str (S ("u"))) [] (S ("k")) (S ("v")) (S ("k2")) (S ("v2"))
    (by decide) (by decide) (by decide) (by decide) (by decide)
    (by decide) (by decide) (by decide) (by decide)

/-- C6: for a semicolon-joined key `a=b;c=d` with no ampersand, the
semicolon-supporting code path (modelled from the spec, exercised by
`test_semicolon_pattern.py`) parses it to the same conjunctive condition
map as the equivalent ampersand-joined key `a=b&c=d`, emits exactly one
rule for it and skips nothing; the non-supporting path of
`growthbook_client.py` classifies the same key unsupported
(semicolon reason) and emits zero rules. -/
theorem C6_semicolon_two_paths (s : GBState) (ck : Option Str) (v : PyVal)
    (a b c d : Str)
    (hea : '=' ∉ a) (hec : '=' ∉ c) (hac : a ≠ c)
    (ha : '&' ∉ a) (hb : '&' ∉ b) (hc : '&' ∉ c) (hd : '&' ∉ d)
    (hsa : ';' ∉ a) (hsb : ';' ∉ b) (hsc : ';' ∉ c) (hsd : ';' ∉ d)
    (hdb : '-' ∉ b) (hdc : '-' ∉ c) (hdd : '-' ∉ d) :
    parseSepConditions ';' ((a ++ '=' :: b) ++ ';' :: (c ++ '=' :: d)) =
      parse_ampersand_conditions ((a ++ '=' :: b) ++ '&' :: (c ++ '=' :: d)) ∧
    ((process_config_to_rules_semi s
      [((a ++ '=' :: b) ++ ';' :: (c ++ '=' :: d), v)] ck).1.2.1).map
      Rule.description = [(a ++ '=' :: b) ++ ';' :: (c ++ '=' :: d)] ∧
    ((process_config_to_rules_semi s
      [((a ++ '=' :: b) ++ ';' :: (c ++ '=' :: d), v)] ck).1.2.1).map
      Rule.value = [extractValue v] ∧
    (process_config_to_rules_semi s
      [((a ++ '=' :: b) ++ ';' :: (c ++ '=' :: d), v)] ck).1.2.2.2.2 = [] ∧
    (process_config_to_rules s
      [((a ++ '=' :: b) ++ ';' :: (c ++ '=' :: d), v)] ck).1.2.1 = [] ∧
    (process_config_to_rules s
      [((a ++ '=' :: b) ++ ';' :: (c ++ '=' :: d), v)] ck).1.2.2.2.2 =
      [{ config_key := ck,
         child_key := (a ++ '=' :: b) ++ ';' :: (c ++ '=' :: d),
         reason := S ("unsupported_separator_semicolon"),
         value := extractValue v }] := by
  have h1 := parseSepConditions_pair ';' a b c d (by decide) hsa hsb hsc hsd hea hec hac
  have h2 := parseSepConditions_pair '&' a b c d (by decide) ha hb hc hd hea hec hac
  have hampK : '&' ∉ (a ++ '=' :: b) ++ ';' :: (c ++ '=' :: d) :=
    not_mem_key_shape ';' (by decide) (by decide) ha hb hc hd
  have hsemK : ';' ∈ (a ++ '=' :: b) ++ ';' :: (c ++ '=' :: d) := by simp
  have hkd : (a ++ '=' :: b) ++ ';' :: (c ++ '=' :: d) ≠ S ("default") :=
    ne_default_of_eq_mem (eq_mem_key a b _ ';')
  have hsk : (a ++ '=' :: b) ++ ';' :: (c ++ '=' :: d) ∉ SIMPLE_KEYS :=
    not_mem_simple_keys_of_eq (eq_mem_key a b _ ';')
  have hflag : hasUnsupportedSeparatorSemiSupported
      ((a ++ '=' :: b) ++ ';' :: (c ++ '=' :: d)) = false := by
    apply hasUnsupportedSeparatorSemiSupported_eq_false
    rw [afterFirst_key a b _ ';' hea]
    exact not_mem_vp_shape ';' (by decide) (by decide) hdb hdc hdd
  have hsemi := processSemi_single_semicolon s ck _ v hkd hflag hsk hampK hsemK
  have hdet := hasUnsupportedSeparator_semicolon a b c d hea hampK
  have hskip := process_single_skipped s ck _ v hkd hdet
  refine ⟨?_, ?_, ?_, ?_, ?_, ?_⟩
  · rw [parse_ampersand_conditions, h1, h2]
  · rw [hsemi]
    rfl
  · rw [hsemi]
    rfl
  · rw [hsemi]
  · rw [hskip]
  · rw [hskip, if_pos hsemK]
    rfl

/-- C6 (witness): the two code paths at the concrete pair
`utm_campaign=x;utm_medium=y` versus `utm_campaign=x&utm_medium=y`. -/
theorem C6_semicolon_two_paths_witness :
    parseSepConditions ';'
      ((S ("utm_campaign") ++ '=' :: S ("x")) ++ ';' ::
        (S ("utm_medium") ++ '=' :: S ("y"))) =
      parse_ampersand_conditions
        ((S ("utm_campaign") ++ '=' :: S ("x")) ++ '&' ::
          (S ("utm_medium") ++ '=' :: S ("y"))) ∧
    ((process_config_to_rules_semi gbInit
      [((S ("utm_campaign") ++ '=' :: S ("x")) ++ ';' ::
        (S ("utm_medium") ++ '=' :: S ("y")), PyVal.str (S ("u")))]
      (some (S ("TEST_SEMICOLON")))).1.2.1).map Rule.description =
      [(S ("utm_campaign") ++ '=' :: S ("x")) ++ ';' ::
        (S ("utm_medium") ++ '=' :: S ("y"))] ∧
    ((process_config_to_rules_semi gbInit
      [((S ("utm_campaign") ++ '=' :: S ("x")) ++ ';' ::
        (S ("utm_medium") ++ '=' :: S ("y")), PyVal.str (S ("u")))]
      (some (S ("TEST_SEMICOLON")))).1.2.1).map Rule.value =
      [extractValue (PyVal.str (S ("u")))] ∧
    (process_config_to_rules_semi gbInit
      [((S ("utm_campaign") ++ '=' :: S ("x")) ++ ';' ::
        (S ("utm_medium") ++ '=' :: S ("y")), PyVal.str (S ("u")))]
      (some (S ("TEST_SEMICOLON")))).1.2.2.2.2 = [] ∧
    (process_config_to_rules gbInit
      [((S ("utm_campaign") ++ '=' :: S ("x")) ++ ';' ::
        (S ("utm_medium") ++ '=' :: S ("y")), PyVal.str (S ("u")))]
      (some (S ("TEST_SEMICOLON")))).1.2.1 = [] ∧
    (process_config_to_rules gbInit
      [((S ("utm_campaign") ++ '=' :: S ("x")) ++ ';' ::
        (S ("utm_medium") ++ '=' :: S ("y")), PyVal.str (S ("u")))]
      (some (S ("TEST_SEMICOLON")))).1.2.2.2.2 =
      [{ config_key := some (S ("TEST_SEMICOLON")),
         child_key := (S ("utm_campaign") ++ '=' :: S ("x")) ++ ';' ::
           (S ("utm_medium") ++ '=' :: S ("y")),
         reason := S ("unsupported_separator_semicolon"),
         value := extractValue (PyVal.str (S ("u"))) }] :=
  C6_semicolon_two_paths gbInit (some (S ("TEST_SEMICOLON")))
    (PyVal.str (S ("u"))) (S ("utm_campaign")) (S ("x")) (S ("utm_medium"))
    (S ("y")) (by decide) (by decide) (by decide) (by decide) (by decide)
    (by decide) (by decide) (by decide) (by decide) (by decide) (by decide)
    (by decide) (by decide) (by decide)

/-- C2: merging configuration fragments sorts them ascending by priority
score and folds left-to-right with unconditional overwrite, so for every
key the value from the highest-priority fragment defining it wins
(fragment priorities pairwise distinct, fragment keys duplicate-free);
in particular merging the fragments `(0, A ↦ x)` and `(5, A ↦ y, B ↦ z)`
yields `A ↦ y, B ↦ z` in either listing order. -/
theorem C2_priority_merge :
    (∀ (fs : List (Nat × Config)) (k : Str) (p0 : Nat) (m0 : Config),
      fs.Pairwise (fun x y => x.1 ≠ y.1) → (p0, m0) ∈ fs →
      (dictGet m0 k).isSome → (m0.map Prod.fst).Nodup →
      (∀ p m, (p, m) ∈ fs → (dictGet m k).isSome → p ≤ p0) →
      dictGet (mergeFragments fs) k = dictGet m0 k) ∧
    mergeFragments
      [(0, [(S ("A"), PyVal.str (S ("x")))]),
       (5, [(S ("A"), PyVal.str (S ("y"))), (S ("B"), PyVal.str (S ("z")))])] =
      [(S ("A"), PyVal.str (S ("y"))), (S ("B"), PyVal.str (S ("z")))] ∧
    mergeFragments
      [(5, [(S ("A"), PyVal.str (S ("y"))), (S ("B"), PyVal.str (S ("z")))]),
       (0, [(S ("A"), PyVal.str (S ("x")))])] =
      [(S ("A"), PyVal.str (S ("y"))), (S ("B"), PyVal.str (S ("z")))] :=
  ⟨fun fs k p0 m0 h1 h2 h3 h4 h5 =>
    mergeFragments_highest_wins fs k p0 m0 h1 h2 h3 h4 h5, rfl, rfl⟩

/-- C2 (witness): the highest-priority fragment wins for the key `A` of
the concrete two-fragment example. -/
theorem C2_priority_merge_witness :
    dictGet (mergeFragments
      [(0, [(S ("A"), PyVal.str (S ("x")))]),
       (5, [(S ("A"), PyVal.str (S ("y"))), (S ("B"), PyVal.str (S ("z")))])])
      (S ("A")) =
      dictGet [(S ("A"), PyVal.str (S ("y"))), (S ("B"), PyVal.str (S ("z")))]
        (S ("A")) :=
  C2_priority_merge.1
    [(0, [(S ("A"), PyVal.str (S ("x")))]),
     (5, [(S ("A"), PyVal.str (S ("y"))), (S ("B"), PyVal.str (S ("z")))])]
    (S ("A")) 5
    [(S ("A"), PyVal.str (S ("y"))), (S ("B"), PyVal.str (S ("z")))]
    (by
      refine List.Pairwise.cons ?_ (List.pairwise_singleton _ _)
      intro y hy
      rcases List.mem_cons.mp hy with h | h
      · rw [h]
        decide
      · cases h)
    (by
      right
      exact List.mem_cons_self _ _)
    rfl
    (by decide)
    (by
      intro p m hm _
      rcases List.mem_cons.mp hm with h | h
      · rw [Prod.mk.injEq] at h
        rw [h.1]
        decide
      · rcases List.mem_cons.mp h with h2 | h2
        · rw [Prod.mk.injEq] at h2
          rw [h2.1]
        · cases h2)
